import Mathlib

/-!
Verification of the audio playback engine of the soosa Discord bot.

The development shallowly embeds the engine's core components and checks the
frozen claims about them against the source:

* Volume Scaler: PCMVolume.Read in internal/player/manager.go, modelled as a
  pure function over byte lists, with the float64 sample arithmetic idealized
  as exact rational arithmetic. The concrete counterexample inputs use only
  dyadic rationals and integers that float64 represents exactly, so the
  refutations carry over to the real code.
* Header Parser: ReadWavHeader in internal/player/manager.go, modelled as a
  fuel-indexed chunk scan over byte lists.
* Player queue operations: PlayPrevious and SetVolume, modelled as pure
  state-to-state functions.
* Manager.Shutdown, modelled as a pure function returning the new registry and
  the set of players whose Stop call was launched.
* streamSong teardown, modelled by a small evaluator for straight-line Go
  bodies with defer semantics and an optional panic point.
* Player.Stop against playLoop, modelled as a small-step interleaving system
  over the shared player state, with processes for up to two concurrent Stop
  callers, the playback loop, Manager.Shutdown and Manager.Remove.
-/

namespace Soosa

/-! ## Volume Scaler: PCMVolume.Read (internal/player/manager.go lines 120-183)

Bytes are natural numbers below 256. One Read call is modelled by pcmRead:
the stored leftover byte, the capacity of the caller's buffer p, the bytes the
underlying reader returns and the error it reports determine the bytes
delivered, the new leftover and the returned error. -/

/-- Two's-complement reading of a 16-bit little-endian value, as in
int16(binary.LittleEndian.Uint16(...)). -/
def sampleOfU16 (u : ℕ) : ℤ := if u < 32768 then (u : ℤ) else (u : ℤ) - 65536

/-- Unsigned 16-bit representation of a sample, as in uint16(int16(...)). -/
def u16OfSample (s : ℤ) : ℕ := (s % 65536).toNat

/-- Truncation toward zero: the semantics of Go's conversion from float64 to
int16 for in-range values, over the rational idealization. -/
def truncQ (q : ℚ) : ℤ := if 0 ≤ q then ⌊q⌋ else ⌈q⌉

/-- The per-sample body of the scaling loop: scale by the volume factor,
clamp to 32767 from above and -32768 from below, convert back to int16. -/
def goScale (vol : ℚ) (s : ℤ) : ℤ :=
  let scaled : ℚ := (s : ℚ) * vol
  let clamped : ℚ := if scaled > 32767 then 32767 else if scaled < -32768 then -32768 else scaled
  truncQ clamped

/-- Little-endian byte pair written back by binary.LittleEndian.PutUint16. -/
def bytesOfSample (s : ℤ) : List ℕ := [u16OfSample s % 256, u16OfSample s / 256]

/-- Little-endian byte stream of a list of int16 samples. -/
def bytesOfSamples (l : List ℤ) : List ℕ := (l.map bytesOfSample).flatten

/-- The scaling loop over consecutive byte pairs (manager.go lines 160-176). -/
def scaleList (vol : ℚ) : List ℕ → List ℕ
  | lo :: hi :: rest =>
    bytesOfSample (goScale vol (sampleOfU16 (lo + 256 * hi))) ++ scaleList vol rest
  | l => l

/-- The volume test of manager.go line 157: scaling is skipped whenever the
factor is within 0.001 of 1.0. -/
def applyVolume (vol : ℚ) (l : List ℕ) : List ℕ :=
  if |vol - 1| > 1 / 1000 then scaleList vol l else l

/-- Lines 144-178 of manager.go: given the bytes available in p, stash the
last byte when the total is odd, scale the even remainder, and return the
underlying reader's error unchanged. -/
def pcmCombine (vol : ℚ) (all : List ℕ) (srcErr : Option Unit) :
    List ℕ × Option ℕ × Option Unit :=
  if all.length % 2 = 1 then (applyVolume vol all.dropLast, some (all.getLastD 0), srcErr)
  else (applyVolume vol all, none, srcErr)

/-- One call of PCMVolume.Read. The source reads into p after the prepended
leftover byte, so src is the byte list the underlying reader returned and
srcErr the error it reported alongside them. -/
def pcmRead (vol : ℚ) (leftover : Option ℕ) (cap : ℕ) (src : List ℕ) (srcErr : Option Unit) :
    List ℕ × Option ℕ × Option Unit :=
  if cap = 0 then ([], leftover, none)
  else
    match leftover with
    | some b =>
      if cap = 1 then ([b], none, none)
      else pcmCombine vol (b :: src) srcErr
    | none => pcmCombine vol src srcErr

/-- Modelled from the spec words of C1 only, for comparison with the code:
clamp(round(input*f), -32768, 32767). -/
def specRoundScale (vol : ℚ) (s : ℤ) : ℤ :=
  max (-32768) (min 32767 (round ((s : ℚ) * vol)))

lemma sampleOfU16_u16OfSample {s : ℤ} (h1 : -32768 ≤ s) (h2 : s ≤ 32767) :
    sampleOfU16 (u16OfSample s) = s := by
  unfold sampleOfU16 u16OfSample
  split <;> omega

lemma length_bytesOfSample (s : ℤ) : (bytesOfSample s).length = 2 := rfl

lemma length_bytesOfSamples (l : List ℤ) : (bytesOfSamples l).length = 2 * l.length := by
  induction l with
  | nil => simp [bytesOfSamples]
  | cons a l ih =>
    simp only [bytesOfSamples, List.map_cons, List.flatten_cons, List.length_append,
      List.length_cons, length_bytesOfSample] at ih ⊢
    omega

lemma scaleList_bytesOfSamples (vol : ℚ) (l : List ℤ)
    (hs : ∀ s ∈ l, -32768 ≤ s ∧ s ≤ 32767) :
    scaleList vol (bytesOfSamples l) = bytesOfSamples (l.map (goScale vol)) := by
  induction l with
  | nil => simp [bytesOfSamples, scaleList]
  | cons a l ih =>
    obtain ⟨h1, h2⟩ := hs a (List.mem_cons_self a l)
    have hrest := ih (fun s hsm => hs s (List.mem_cons_of_mem _ hsm))
    have hu : u16OfSample a % 256 + 256 * (u16OfSample a / 256) = u16OfSample a :=
      Nat.mod_add_div _ _
    simp only [bytesOfSamples, List.map_cons, List.flatten_cons] at hrest ⊢
    rw [bytesOfSample]
    show scaleList vol
      (u16OfSample a % 256 :: u16OfSample a / 256 :: (l.map bytesOfSample).flatten) = _
    rw [scaleList, hu, sampleOfU16_u16OfSample h1 h2, hrest]

/-- C1 (amended): a Read of a whole buffer of N little-endian int16 samples
with factor f at least 0 returns, when the factor differs from 1.0 by more
than 0.001, the byte encoding of each sample scaled by f, clamped to the
int16 range and truncated toward zero; otherwise - in particular for f = 1.0 -
the exact input bytes. The multiplication is idealized as exact rational
arithmetic in place of float64. -/
theorem pcmRead_scales_samples (vol : ℚ) (_hvol : 0 ≤ vol) (samples : List ℤ)
    (hs : ∀ s ∈ samples, -32768 ≤ s ∧ s ≤ 32767) (cap : ℕ)
    (hcap : (bytesOfSamples samples).length ≤ cap) :
    pcmRead vol none cap (bytesOfSamples samples) none =
      ((if |vol - 1| > 1 / 1000 then bytesOfSamples (samples.map (goScale vol))
        else bytesOfSamples samples), none, none) := by
  rw [pcmRead]
  by_cases hc : cap = 0
  · have hnil : samples = [] := by
      have := length_bytesOfSamples samples
      have : samples.length = 0 := by omega
      exact List.eq_nil_of_length_eq_zero this
    subst hnil
    simp [hc, bytesOfSamples]
  · rw [if_neg hc]
    rw [pcmCombine]
    have hlen := length_bytesOfSamples samples
    rw [if_neg (by omega)]
    rw [applyVolume]
    split
    · rw [scaleList_bytesOfSamples vol samples hs]
    · rfl

/-- C1 (witness): scaling the samples 1000, -2000, 30000 by factor 2 yields
2000, -4000 and the clamped 32767. -/
theorem pcmRead_scales_samples_witness :
    pcmRead 2 none 6 (bytesOfSamples [1000, -2000, 30000]) none =
      (bytesOfSamples [2000, -4000, 32767], none, none) := by
  rw [pcmRead_scales_samples 2 (by norm_num) [1000, -2000, 30000] (by decide) 6 (by decide)]
  norm_num [goScale, truncQ, bytesOfSamples, bytesOfSample, sampleOfU16, u16OfSample,
    Int.ceil_neg]

/-- C1 (counterexample): the code truncates toward zero instead of rounding -
sample 1 at factor 1.5 yields 1 where the claim demands round(1.5) = 2 - and
it passes bytes through unscaled whenever the factor is within 0.001 of 1.0 -
sample 10000 at factor 1.0005 yields 10000 where the claim demands 10005. -/
theorem pcmRead_trunc_not_round_cex :
    (pcmRead (3/2) none 2 [1, 0] none).1 ≠ bytesOfSamples [specRoundScale (3/2) 1] ∧
    (pcmRead (2001/2000) none 2 [16, 39] none).1 ≠
      bytesOfSamples [specRoundScale (2001/2000) 10000] := by
  constructor
  · norm_num [pcmRead, pcmCombine, applyVolume, scaleList, specRoundScale, bytesOfSamples,
      bytesOfSample, sampleOfU16, u16OfSample, goScale, truncQ, round_eq, abs_of_nonneg,
      Int.ceil_neg]
    decide
  · norm_num [pcmRead, pcmCombine, applyVolume, scaleList, specRoundScale, bytesOfSamples,
      bytesOfSample, sampleOfU16, u16OfSample, goScale, truncQ, round_eq, abs_of_nonneg,
      Int.ceil_neg]
    decide

/-- C2 (code bug): a Read returning the bytes 9, 7, 5 withholds the unpaired
byte 5 and delivers 9, 7, as specified. But when the next Read hits the end
of the stream - the source returns 0 bytes with the error - the code re-counts
the prepended leftover byte as an unpaired total of 1, stashes it again and
returns 0 bytes together with the error: the buffered byte 5 is never
delivered to the caller, although the claim - and the comment at manager.go
line 180 - say the buffered byte is returned together with the error. -/
theorem pcmRead_eof_strands_leftover :
    pcmRead 1 none 3840 [9, 7, 5] none = ([9, 7], some 5, none) ∧
    pcmRead 1 (some 5) 3840 [] (some ()) = ([], some 5, some ()) := by
  constructor
  · norm_num [pcmRead, pcmCombine, applyVolume]
  · norm_num [pcmRead, pcmCombine, applyVolume]

/-! ## Header Parser: ReadWavHeader (internal/player/manager.go lines 197-266)

The byte stream is a list of naturals; reading is modelled by take and drop.
io.ReadFull fails when fewer bytes remain than requested, io.CopyN fails when
fewer than the requested count can be discarded, and the error of the 1-byte
padding discard is ignored by the source, hence modelled as a plain drop. The
chunk loop consumes at least 8 bytes per iteration, so the stream length plus
one bounds the number of iterations and serves as fuel. -/

def dec16 (l : List ℕ) : ℕ := l.getD 0 0 + 256 * l.getD 1 0

def dec32 (l : List ℕ) : ℕ :=
  l.getD 0 0 + 256 * l.getD 1 0 + 65536 * l.getD 2 0 + 16777216 * l.getD 3 0

def le16 (n : ℕ) : List ℕ := [n % 256, n / 256 % 256]

def le32 (n : ℕ) : List ℕ := [n % 256, n / 256 % 256, n / 65536 % 256, n / 16777216 % 256]

/-- The ASCII bytes of the RIFF magic. -/
def riffMagic : List ℕ := [82, 73, 70, 70]

/-- The ASCII bytes of the WAVE magic. -/
def waveMagic : List ℕ := [87, 65, 86, 69]

/-- The ASCII bytes of the format chunk tag, including the trailing space. -/
def fmtTag : List ℕ := [102, 109, 116, 32]

/-- The ASCII bytes of the data chunk tag. -/
def dataTag : List ℕ := [100, 97, 116, 97]

structure WavHeader where
  audioFormat : ℕ
  numChannels : ℕ
  sampleRate : ℕ
  byteRate : ℕ
  blockAlign : ℕ
  bitsPerSample : ℕ
deriving DecidableEq

/-- Field extraction from the format chunk payload, manager.go lines 234-239. -/
def parseFmt (f : List ℕ) : WavHeader :=
  { audioFormat := dec16 f, numChannels := dec16 (f.drop 2), sampleRate := dec32 (f.drop 4),
    byteRate := dec32 (f.drop 8), blockAlign := dec16 (f.drop 12),
    bitsPerSample := dec16 (f.drop 14) }

/-- The 2-byte alignment discard of manager.go lines 262-264; its error is
ignored, so a missing padding byte leaves the stream empty. -/
def skipPad (csize : ℕ) (s : List ℕ) : List ℕ := if csize % 2 = 1 then s.drop 1 else s

/-- The chunk loop of ReadWavHeader, manager.go lines 217-265. -/
def readChunks (h : WavHeader) (foundFmt : Bool) (s : List ℕ) :
    ℕ → Except String (WavHeader × List ℕ)
  | 0 => .error "out of fuel"
  | fuel + 1 =>
    if s.length < 8 then .error "unexpected EOF"
    else if s.take 4 = fmtTag then
      if dec32 (s.drop 4) < 16 then .error "invalid fmt chunk size"
      else if (s.drop 8).length < dec32 (s.drop 4) then .error "unexpected EOF"
      else
        readChunks (parseFmt ((s.drop 8).take (dec32 (s.drop 4)))) true
          (skipPad (dec32 (s.drop 4)) ((s.drop 8).drop (dec32 (s.drop 4)))) fuel
    else if s.take 4 = dataTag then
      if foundFmt = false then .error "data chunk before fmt chunk"
      else if h.audioFormat ≠ 1 ∧ h.audioFormat ≠ 65534 then .error "unsupported WAV format"
      else .ok (h, s.drop 8)
    else
      if (s.drop 8).length < dec32 (s.drop 4) then .error "failed to skip chunk"
      else readChunks h foundFmt (skipPad (dec32 (s.drop 4)) ((s.drop 8).drop (dec32 (s.drop 4)))) fuel

/-- ReadWavHeader: validate the 12-byte prologue, then scan chunks. The
returned list is the unread remainder of the stream, that is the reader
position after parsing. -/
def readWavHeader (s : List ℕ) : Except String (WavHeader × List ℕ) :=
  if s.length < 12 then .error "unexpected EOF"
  else if s.take 4 ≠ riffMagic then .error "invalid WAV: missing RIFF"
  else if (s.drop 8).take 4 ≠ waveMagic then .error "invalid WAV: missing WAVE"
  else readChunks ⟨0, 0, 0, 0, 0, 0⟩ false (s.drop 12) (s.length + 1)

/-- The 16 mandatory bytes of a format chunk payload for the given fields. -/
def fmtFields (af ch sr br ba bps : ℕ) : List ℕ :=
  le16 af ++ le16 ch ++ le32 sr ++ le32 br ++ le16 ba ++ le16 bps

/-- A well-formed chunk: tag, declared size, payload of exactly that size. -/
def mkChunk (tag payload : List ℕ) : List ℕ := tag ++ le32 payload.length ++ payload

/-- The alignment padding a well-formed stream carries after a chunk whose
declared size is odd. -/
def padOf (payload : List ℕ) (padByte : ℕ) : List ℕ :=
  if payload.length % 2 = 1 then [padByte] else []

lemma take_len_append {α : Type} (l r : List α) (n : ℕ) (h : l.length = n) :
    (l ++ r).take n = l := by
  subst h; simp

lemma drop_len_append {α : Type} (l r : List α) (n : ℕ) (h : l.length = n) :
    (l ++ r).drop n = r := by
  subst h; simp

lemma length_le16 (n : ℕ) : (le16 n).length = 2 := rfl

lemma length_le32 (n : ℕ) : (le32 n).length = 4 := rfl

lemma length_riffMagic : riffMagic.length = 4 := rfl

lemma length_waveMagic : waveMagic.length = 4 := rfl

lemma length_fmtTag : fmtTag.length = 4 := rfl

lemma length_dataTag : dataTag.length = 4 := rfl

lemma length_fmtFields (af ch sr br ba bps : ℕ) :
    (fmtFields af ch sr br ba bps).length = 16 := by
  simp [fmtFields, le16, le32]

lemma dec32_le32_append (n : ℕ) (r : List ℕ) (h : n < 4294967296) :
    dec32 (le32 n ++ r) = n := by
  simp [dec32, le32]
  omega

lemma chunk_length (tag : List ℕ) (n : ℕ) (body : List ℕ) (h : tag.length = 4) :
    (tag ++ (le32 n ++ body)).length = 8 + body.length := by
  simp [h, length_le32]
  omega

lemma chunk_take4 (tag r : List ℕ) (h : tag.length = 4) : (tag ++ r).take 4 = tag :=
  take_len_append _ _ _ h

lemma chunk_drop4 (tag r : List ℕ) (h : tag.length = 4) : (tag ++ r).drop 4 = r :=
  drop_len_append _ _ _ h

lemma chunk_drop8 (tag : List ℕ) (n : ℕ) (body : List ℕ) (h : tag.length = 4) :
    (tag ++ (le32 n ++ body)).drop 8 = body := by
  rw [← List.append_assoc]
  exact drop_len_append _ _ _ (by simp [h, length_le32])

lemma skipPad_padOf (p : List ℕ) (pb : ℕ) (r : List ℕ) :
    skipPad p.length (padOf p pb ++ r) = r := by
  unfold skipPad padOf
  by_cases hpar : p.length % 2 = 1 <;> simp [hpar]

lemma parseFmt_fields (af ch sr br ba bps : ℕ) (fe : List ℕ)
    (haf : af < 65536) (hch : ch < 65536) (hsr : sr < 4294967296) (hbr : br < 4294967296)
    (hba : ba < 65536) (hbps : bps < 65536) :
    parseFmt (fmtFields af ch sr br ba bps ++ fe) = ⟨af, ch, sr, br, ba, bps⟩ := by
  simp [parseFmt, fmtFields, le16, le32, dec16, dec32, WavHeader.mk.injEq]
  omega

lemma readChunks_fmt_step (h : WavHeader) (ff : Bool) (af ch sr br ba bps : ℕ)
    (fe : List ℕ) (fp : ℕ) (rest : List ℕ) (fuel : ℕ)
    (haf : af < 65536) (hch : ch < 65536) (hsr : sr < 4294967296) (hbr : br < 4294967296)
    (hba : ba < 65536) (hbps : bps < 65536) (hfe : 16 + fe.length < 4294967296) :
    readChunks h ff
      (mkChunk fmtTag (fmtFields af ch sr br ba bps ++ fe) ++
        padOf (fmtFields af ch sr br ba bps ++ fe) fp ++ rest) (fuel + 1)
      = readChunks ⟨af, ch, sr, br, ba, bps⟩ true rest fuel := by
  have hP : (fmtFields af ch sr br ba bps ++ fe).length = 16 + fe.length := by
    simp [length_fmtFields]
  have hshape : (mkChunk fmtTag (fmtFields af ch sr br ba bps ++ fe) ++
      padOf (fmtFields af ch sr br ba bps ++ fe) fp ++ rest)
      = fmtTag ++ (le32 (16 + fe.length) ++
        ((fmtFields af ch sr br ba bps ++ fe) ++
          (padOf (fmtFields af ch sr br ba bps ++ fe) fp ++ rest))) := by
    simp [mkChunk, hP, List.append_assoc]
  rw [hshape, readChunks]
  have hB : ((fmtFields af ch sr br ba bps ++ fe) ++
      (padOf (fmtFields af ch sr br ba bps ++ fe) fp ++ rest)).length
      = 16 + fe.length + (padOf (fmtFields af ch sr br ba bps ++ fe) fp ++ rest).length := by
    simp [List.length_append, length_fmtFields]
    omega
  rw [if_neg (by rw [chunk_length _ _ _ length_fmtTag]; omega)]
  rw [chunk_take4 _ _ length_fmtTag, if_pos rfl]
  rw [chunk_drop4 _ _ length_fmtTag, dec32_le32_append _ _ hfe, chunk_drop8 _ _ _ length_fmtTag]
  rw [if_neg (by omega), if_neg (by rw [hB]; omega)]
  rw [take_len_append _ _ _ hP, drop_len_append _ _ _ hP]
  rw [parseFmt_fields af ch sr br ba bps fe haf hch hsr hbr hba hbps]
  rw [show (16 + fe.length) = (fmtFields af ch sr br ba bps ++ fe).length from hP.symm]
  rw [skipPad_padOf]

lemma readChunks_skip_step (h : WavHeader) (ff : Bool) (tag payload : List ℕ)
    (pb : ℕ) (rest : List ℕ) (fuel : ℕ)
    (ht4 : tag.length = 4) (htf : tag ≠ fmtTag) (htd : tag ≠ dataTag)
    (hlen : payload.length < 4294967296) :
    readChunks h ff (mkChunk tag payload ++ padOf payload pb ++ rest) (fuel + 1)
      = readChunks h ff rest fuel := by
  have hshape : (mkChunk tag payload ++ padOf payload pb ++ rest)
      = tag ++ (le32 payload.length ++ (payload ++ (padOf payload pb ++ rest))) := by
    simp [mkChunk, List.append_assoc]
  rw [hshape, readChunks]
  rw [if_neg (by rw [chunk_length _ _ _ ht4]; omega)]
  rw [chunk_take4 _ _ ht4, if_neg htf, if_neg htd]
  rw [chunk_drop4 _ _ ht4, dec32_le32_append _ _ hlen, chunk_drop8 _ _ _ ht4]
  rw [if_neg (by simp)]
  rw [drop_len_append _ _ _ rfl, skipPad_padOf]

lemma readChunks_data_step (h : WavHeader) (dsize : ℕ) (rest : List ℕ) (fuel : ℕ)
    (haf : h.audioFormat = 1 ∨ h.audioFormat = 65534) (_hds : dsize < 4294967296) :
    readChunks h true (dataTag ++ le32 dsize ++ rest) (fuel + 1) = .ok (h, rest) := by
  have hshape : (dataTag ++ le32 dsize ++ rest) = dataTag ++ (le32 dsize ++ rest) := by
    simp [List.append_assoc]
  rw [hshape, readChunks]
  rw [if_neg (by rw [chunk_length _ _ _ length_dataTag]; omega)]
  rw [chunk_take4 _ _ length_dataTag]
  rw [if_neg (by decide)]
  rw [if_pos rfl]
  rw [if_neg (by simp), if_neg (by rcases haf with h1 | h1 <;> simp [h1])]
  rw [chunk_drop8 _ _ _ length_dataTag]


/-! ## Player.Stop against playLoop (src/unnamed/part_002)

A small-step interleaving system over the shared player state. A Stop caller
(lines 424-457) runs through: clear the queue under the lock; the select that
checks whether the stop channel is already closed; the close itself - taken
without the lock, so two callers can both pass the check and the second close
then panics, which the model records in the panicked flag and a crashed
program counter; the receive on the done channel, enabled only once done is
closed; the transport disconnect; and the reset of IsPlaying, NowPlaying and
the UI handle. The playback loop (lines 549-619) closes done through its
defer when it exits, which it does on observing the stop signal or an empty
queue; otherwise it dequeues and plays. Manager.Shutdown spawns a Stop caller
and returns at once; Manager.Remove detaches the player from the registry and
then runs the Stop steps itself. -/

inductive StopPC where
  | clearQueue
  | checkStop
  | closeStop
  | waitDone
  | disconnect
  | resetState
  | returned
  | crashed
deriving DecidableEq

inductive LoopPC where
  | running
  | finished
deriving DecidableEq

inductive ShutPC where
  | start
  | launched
deriving DecidableEq

inductive RemPC where
  | detach
  | inStop (pc : StopPC)
  | finished
deriving DecidableEq

structure PlayerShared where
  stopClosed : Bool
  doneClosed : Bool
  panicked : Bool
  connected : Bool
  isPlaying : Bool
  msgStopped : Bool
  registered : Bool
  nowPlaying : Option ℕ
  queue : List ℕ
deriving DecidableEq

inductive StopStep : StopPC → PlayerShared → StopPC → PlayerShared → Prop where
  | clear (sh : PlayerShared) :
      StopStep .clearQueue sh .checkStop { sh with queue := [] }
  | checkClosed (sh : PlayerShared) (h : sh.stopClosed = true) :
      StopStep .checkStop sh .waitDone sh
  | checkOpen (sh : PlayerShared) (h : sh.stopClosed = false) :
      StopStep .checkStop sh .closeStop sh
  | closeOk (sh : PlayerShared) (h : sh.stopClosed = false) :
      StopStep .closeStop sh .waitDone { sh with stopClosed := true }
  | closePanic (sh : PlayerShared) (h : sh.stopClosed = true) :
      StopStep .closeStop sh .crashed { sh with panicked := true }
  | wait (sh : PlayerShared) (h : sh.doneClosed = true) :
      StopStep .waitDone sh .disconnect sh
  | disc (sh : PlayerShared) :
      StopStep .disconnect sh .resetState { sh with connected := false }
  | reset (sh : PlayerShared) :
      StopStep .resetState sh .returned
        { sh with isPlaying := false, nowPlaying := none, msgStopped := true }

inductive LoopStep : LoopPC → PlayerShared → LoopPC → PlayerShared → Prop where
  | observeStop (sh : PlayerShared) (h : sh.stopClosed = true) :
      LoopStep .running sh .finished { sh with doneClosed := true }
  | queueEmpty (sh : PlayerShared) (h : sh.queue = []) :
      LoopStep .running sh .finished
        { sh with doneClosed := true, isPlaying := false, nowPlaying := none, connected := false }
  | playNext (sh : PlayerShared) (song : ℕ) (rest : List ℕ) (h : sh.queue = song :: rest) :
      LoopStep .running sh .running
        { sh with queue := rest, nowPlaying := some song, isPlaying := true }

structure PlayerSys where
  sh : PlayerShared
  loop : Option LoopPC
  s1 : Option StopPC
  s2 : Option StopPC
  shut : Option ShutPC
  rem : Option RemPC
deriving DecidableEq

inductive SysStep : PlayerSys → PlayerSys → Prop where
  | stepS1 (t : PlayerSys) (p p' : StopPC) (sh' : PlayerShared)
      (h1 : t.s1 = some p) (h : StopStep p t.sh p' sh') :
      SysStep t { t with s1 := some p', sh := sh' }
  | stepS2 (t : PlayerSys) (p p' : StopPC) (sh' : PlayerShared)
      (h1 : t.s2 = some p) (h : StopStep p t.sh p' sh') :
      SysStep t { t with s2 := some p', sh := sh' }
  | stepLoop (t : PlayerSys) (p p' : LoopPC) (sh' : PlayerShared)
      (h1 : t.loop = some p) (h : LoopStep p t.sh p' sh') :
      SysStep t { t with loop := some p', sh := sh' }
  | stepShut (t : PlayerSys) (h1 : t.shut = some .start) (h2 : t.s1 = none) :
      SysStep t { t with shut := some .launched, s1 := some .clearQueue }
  | stepRemDetach (t : PlayerSys) (h1 : t.rem = some .detach) :
      SysStep t { t with rem := some (.inStop .clearQueue), sh := { t.sh with registered := false } }
  | stepRemStop (t : PlayerSys) (p p' : StopPC) (sh' : PlayerShared)
      (h1 : t.rem = some (.inStop p)) (h : StopStep p t.sh p' sh') :
      SysStep t { t with rem := some (.inStop p'), sh := sh' }
  | stepRemRet (t : PlayerSys) (h1 : t.rem = some (.inStop .returned)) :
      SysStep t { t with rem := some .finished }

def Reach (a b : PlayerSys) : Prop := Relation.ReflTransGen SysStep a b

lemma reach_invariant {P : PlayerSys → Prop} {init : PlayerSys} (h0 : P init)
    (hstep : ∀ t u, P t → SysStep t u → P u) :
    ∀ t, Reach init t → P t := by
  intro t h
  induction h with
  | refl => exact h0
  | tail _ hbc ih => exact hstep _ _ ih hbc

def stopPastWait : Option StopPC → Bool
  | some .disconnect => true
  | some .resetState => true
  | some .returned => true
  | _ => false

def initialShared : PlayerShared :=
  { stopClosed := false, doneClosed := false, panicked := false, connected := true,
    isPlaying := true, msgStopped := false, registered := true,
    nowPlaying := some 1, queue := [2, 3] }

def initOneStop : PlayerSys :=
  { sh := initialShared, loop := some .running, s1 := some .clearQueue,
    s2 := none, shut := none, rem := none }

def initTwoStops : PlayerSys :=
  { sh := initialShared, loop := some .running, s1 := some .clearQueue,
    s2 := some .clearQueue, shut := none, rem := none }

/-- C3 (counterexample): two concurrent Stop callers can interleave so that
both pass the stop-channel check before either closes it; the second close
then panics - raising the stop signal twice across concurrent Stop calls is
not free of additional effect. The proof exhibits an explicit six-step
interleaving from a playing player with two Stop callers. -/
theorem stop_concurrent_double_close_cex :
    ∃ t, Reach initTwoStops t ∧ t.sh.panicked = true := by
  exact ⟨_, Relation.ReflTransGen.head
      (SysStep.stepS1 _ .clearQueue .checkStop _ rfl (StopStep.clear _))
      (Relation.ReflTransGen.head
        (SysStep.stepS2 _ .clearQueue .checkStop _ rfl (StopStep.clear _))
        (Relation.ReflTransGen.head
          (SysStep.stepS1 _ .checkStop .closeStop _ rfl (StopStep.checkOpen _ rfl))
          (Relation.ReflTransGen.head
            (SysStep.stepS2 _ .checkStop .closeStop _ rfl (StopStep.checkOpen _ rfl))
            (Relation.ReflTransGen.head
              (SysStep.stepS1 _ .closeStop .waitDone _ rfl (StopStep.closeOk _ rfl))
              (Relation.ReflTransGen.head
                (SysStep.stepS2 _ .closeStop .crashed _ rfl (StopStep.closePanic _ rfl))
                Relation.ReflTransGen.refl))))), rfl⟩

def StopInv (t : PlayerSys) : Prop :=
  t.s2 = none ∧ t.shut = none ∧ t.rem = none ∧
  t.sh.panicked = false ∧
  (t.s1 = some .closeStop → t.sh.stopClosed = false) ∧
  ((stopPastWait t.s1 = true ∨ t.s1 = some .waitDone) → t.sh.stopClosed = true) ∧
  (stopPastWait t.s1 = true → t.sh.doneClosed = true) ∧
  (t.s1 ≠ some .clearQueue → t.sh.queue = []) ∧
  (t.s1 = some .resetState → t.sh.connected = false) ∧
  (t.s1 = some .returned → t.sh.connected = false ∧ t.sh.isPlaying = false ∧
    t.sh.nowPlaying = none ∧ t.sh.msgStopped = true)

lemma stopInv_reach : ∀ t, Reach initOneStop t → StopInv t := by
  apply reach_invariant
  · refine ⟨rfl, rfl, rfl, rfl, ?_, ?_, ?_, ?_, ?_, ?_⟩ <;> intro h <;> simp_all [initOneStop, stopPastWait]
  · intro t u hP hstep
    obtain ⟨i1, i2, i3, i4, i5, i6, i7, i8, i9, i10⟩ := hP
    cases hstep with
    | stepS1 p p' sh' h1 h =>
      cases h <;>
        refine ⟨i1, i2, i3, ?_, ?_, ?_, ?_, ?_, ?_, ?_⟩ <;>
          simp_all [stopPastWait]
    | stepS2 p p' sh' h1 h => simp_all
    | stepLoop p p' sh' h1 h =>
      cases h <;>
        refine ⟨i1, i2, i3, ?_, ?_, ?_, ?_, ?_, ?_, ?_⟩ <;>
          simp_all [stopPastWait]
    | stepShut h1 h2 => simp_all
    | stepRemDetach h1 => simp_all
    | stepRemStop p p' sh' h1 h => simp_all
    | stepRemRet h1 => simp_all


def stoppedShared : PlayerShared :=
  { stopClosed := true, doneClosed := true, panicked := false, connected := false,
    isPlaying := false, msgStopped := true, registered := true,
    nowPlaying := none, queue := [] }

def afterFirstStop : PlayerSys :=
  { sh := stoppedShared, loop := some .finished, s1 := some .returned,
    s2 := some .clearQueue, shut := none, rem := none }

lemma reach_afterFirstStop : Reach initOneStop { afterFirstStop with s2 := none } :=
  Relation.ReflTransGen.head
    (SysStep.stepS1 _ .clearQueue .checkStop _ rfl (StopStep.clear _))
    (Relation.ReflTransGen.head
      (SysStep.stepS1 _ .checkStop .closeStop _ rfl (StopStep.checkOpen _ rfl))
      (Relation.ReflTransGen.head
        (SysStep.stepS1 _ .closeStop .waitDone _ rfl (StopStep.closeOk _ rfl))
        (Relation.ReflTransGen.head
          (SysStep.stepLoop _ .running .finished _ rfl (LoopStep.observeStop _ rfl))
          (Relation.ReflTransGen.head
            (SysStep.stepS1 _ .waitDone .disconnect _ rfl (StopStep.wait _ rfl))
            (Relation.ReflTransGen.head
              (SysStep.stepS1 _ .disconnect .resetState _ rfl (StopStep.disc _))
              (Relation.ReflTransGen.head
                (SysStep.stepS1 _ .resetState .returned _ rfl (StopStep.reset _))
                Relation.ReflTransGen.refl))))))

def SecondStopInv (t : PlayerSys) : Prop :=
  t.sh = afterFirstStop.sh ∧ t.loop = some .finished ∧ t.s1 = some .returned ∧
  t.shut = none ∧ t.rem = none ∧ t.s2 ≠ some .closeStop

lemma secondStopInv_reach : ∀ t, Reach afterFirstStop t → SecondStopInv t := by
  apply reach_invariant
  · exact ⟨rfl, rfl, rfl, rfl, rfl, by simp [afterFirstStop]⟩
  · intro t u hP hstep
    obtain ⟨i1, i2, i3, i4, i5, i6⟩ := hP
    cases hstep with
    | stepS1 p p' sh' h1 h => cases h <;> simp_all [SecondStopInv, afterFirstStop, stoppedShared]
    | stepS2 p p' sh' h1 h => cases h <;> simp_all [SecondStopInv, afterFirstStop, stoppedShared]
    | stepLoop p p' sh' h1 h => cases h <;> simp_all
    | stepShut h1 h2 => simp_all
    | stepRemDetach h1 => simp_all
    | stepRemStop p p' sh' h1 h => simp_all
    | stepRemRet h1 => simp_all

/-- C3 (amended): in every reachable state of a playing player with one Stop
caller, no panic occurs; the caller is past its wait on the done channel only
once the control loop has closed it; and when Stop has returned the queue is
cleared, the transport disconnected, IsPlaying and NowPlaying reset and the
UI handle set to the stopped state - so Stop does not return before the loop
has exited and the disconnect and resets happen only then. Raising the signal
again is idempotent only sequentially: a second Stop issued after the first
returned - the reachable state afterFirstStop - leaves the shared state
unchanged in every reachable continuation; two concurrent raisings can panic,
as the counterexample shows. -/
theorem stop_blocks_until_loop_exit :
    (∀ t, Reach initOneStop t →
      t.sh.panicked = false ∧
      (stopPastWait t.s1 = true → t.sh.doneClosed = true) ∧
      (t.s1 = some StopPC.returned → t.sh.queue = [] ∧ t.sh.connected = false ∧
        t.sh.isPlaying = false ∧ t.sh.nowPlaying = none ∧ t.sh.msgStopped = true)) ∧
    Reach initOneStop { afterFirstStop with s2 := none } ∧
    (∀ t, Reach afterFirstStop t → t.sh = afterFirstStop.sh) := by
  refine ⟨?_, reach_afterFirstStop, ?_⟩
  · intro t ht
    obtain ⟨i1, i2, i3, i4, i5, i6, i7, i8, i9, i10⟩ := stopInv_reach t ht
    refine ⟨i4, i7, fun hr => ⟨i8 (by simp [hr]), (i10 hr).1, (i10 hr).2.1,
      (i10 hr).2.2.1, (i10 hr).2.2.2⟩⟩
  · intro t ht
    exact (secondStopInv_reach t ht).1

/-- C3 (witness): the amended theorem applied at the initial state and at the
post-first-Stop state. -/
theorem stop_blocks_until_loop_exit_witness :
    initOneStop.sh.panicked = false ∧ afterFirstStop.sh = afterFirstStop.sh :=
  ⟨(stop_blocks_until_loop_exit.1 initOneStop Relation.ReflTransGen.refl).1,
   stop_blocks_until_loop_exit.2.2 afterFirstStop Relation.ReflTransGen.refl⟩

def neverStartedShared : PlayerShared :=
  { stopClosed := false, doneClosed := false, panicked := false, connected := false,
    isPlaying := false, msgStopped := false, registered := true,
    nowPlaying := none, queue := [] }

def initNeverStarted : PlayerSys :=
  { sh := neverStartedShared, loop := none, s1 := none, s2 := some .clearQueue,
    shut := some .start, rem := some .detach }

def NeverStartedInv (t : PlayerSys) : Prop :=
  t.sh.doneClosed = false ∧ t.loop = none ∧
  stopPastWait t.s1 = false ∧ stopPastWait t.s2 = false ∧
  (∀ p, t.rem = some (.inStop p) → stopPastWait (some p) = false) ∧
  t.rem ≠ some .finished

lemma neverStartedInv_reach : ∀ t, Reach initNeverStarted t → NeverStartedInv t := by
  apply reach_invariant
  · refine ⟨rfl, rfl, rfl, rfl, ?_, by simp [initNeverStarted]⟩
    intro p hp
    simp [initNeverStarted] at hp
  · intro t u hP hstep
    obtain ⟨i1, i2, i3, i4, i5, i6⟩ := hP
    cases hstep with
    | stepS1 p p' sh' h1 h => cases h <;> simp_all [NeverStartedInv, stopPastWait]
    | stepS2 p p' sh' h1 h => cases h <;> simp_all [NeverStartedInv, stopPastWait]
    | stepLoop p p' sh' h1 h => cases h <;> simp_all
    | stepShut h1 h2 => simp_all [NeverStartedInv, stopPastWait]
    | stepRemDetach h1 => simp_all [NeverStartedInv, stopPastWait]
    | stepRemStop p p' sh' h1 h =>
      have hp := i5 p h1
      cases h <;> simp_all [NeverStartedInv, stopPastWait]
    | stepRemRet h1 =>
      have hp := i5 .returned h1
      simp [stopPastWait] at hp

/-- C10 (amended): on a player that was created but never successfully
started - no playback loop exists and only the loop ever closes the done
channel - no Stop caller ever returns: not a direct Stop call, not the Stop
launched by Manager.Shutdown, and not the Stop that Manager.Remove runs, so
Remove never returns either. Manager.Shutdown itself, however, does return:
it only launches the Stop on a separate task, so it does not inherit the
blocking, contrary to the claim. -/
theorem never_started_stop_never_returns :
    (∀ t, Reach initNeverStarted t →
      t.s1 ≠ some StopPC.returned ∧ t.s2 ≠ some StopPC.returned ∧
      t.rem ≠ some (RemPC.inStop StopPC.returned) ∧ t.rem ≠ some RemPC.finished) ∧
    (∃ t, Reach initNeverStarted t ∧ t.shut = some ShutPC.launched) := by
  constructor
  · intro t ht
    obtain ⟨i1, i2, i3, i4, i5, i6⟩ := neverStartedInv_reach t ht
    refine ⟨?_, ?_, ?_, i6⟩
    · intro hr
      rw [hr] at i3
      exact absurd i3 (by simp [stopPastWait])
    · intro hr
      rw [hr] at i4
      exact absurd i4 (by simp [stopPastWait])
    · intro hr
      have hc := i5 _ hr
      exact absurd hc (by simp [stopPastWait])
  · exact ⟨_, Relation.ReflTransGen.head (SysStep.stepShut _ rfl rfl)
      Relation.ReflTransGen.refl, rfl⟩

/-- C10 (counterexample): from a never-started player, one step of the
Shutdown process reaches a state in which Shutdown has returned - its spawned
Stop caller still at its first instruction - refuting the claim that
Manager.Shutdown on such a player inherits the forever-blocking of Stop. -/
theorem never_started_shutdown_returns_cex :
    ∃ t, Reach initNeverStarted t ∧ t.shut = some ShutPC.launched ∧ t.loop = none ∧
      t.s1 = some StopPC.clearQueue :=
  ⟨_, Relation.ReflTransGen.head (SysStep.stepShut _ rfl rfl) Relation.ReflTransGen.refl,
    rfl, rfl, rfl⟩

/-- C10 (witness): the amended theorem applied at the initial never-started
state itself. -/
theorem never_started_stop_never_returns_witness :
    initNeverStarted.s1 ≠ some StopPC.returned ∧
    initNeverStarted.s2 ≠ some StopPC.returned ∧
    initNeverStarted.rem ≠ some (RemPC.inStop StopPC.returned) ∧
    initNeverStarted.rem ≠ some RemPC.finished :=
  never_started_stop_never_returns.1 initNeverStarted Relation.ReflTransGen.refl


/-- C4 (confirmed): for every well-formed RIFF WAVE stream whose chunks are
ordered format chunk, one ignorable chunk, data chunk - declared sizes
matching payloads, a padding byte after each odd-sized chunk, a valid format
code - the parser returns the channels, sample rate and bits per sample
declared in the format chunk, skips the ignorable chunk by discarding exactly
its declared size plus one padding byte when that size is odd, and leaves the
reader at the first byte of the data payload, in a single forward pass. -/
theorem readWavHeader_ordered_chunks
    (sz : List ℕ) (af ch sr br ba bps : ℕ) (fe : List ℕ) (fp : ℕ)
    (tag extra : List ℕ) (xp : ℕ) (dsize : ℕ) (rest : List ℕ)
    (haf : af = 1 ∨ af = 65534)
    (hch : ch < 65536) (hsr : sr < 4294967296) (hbr : br < 4294967296)
    (hba : ba < 65536) (hbps : bps < 65536)
    (hsz : sz.length = 4)
    (ht4 : tag.length = 4) (htf : tag ≠ fmtTag) (htd : tag ≠ dataTag)
    (hfe : 16 + fe.length < 4294967296)
    (hex : extra.length < 4294967296)
    (hds : dsize < 4294967296) :
    readWavHeader
      (riffMagic ++ sz ++ waveMagic ++
        mkChunk fmtTag (fmtFields af ch sr br ba bps ++ fe) ++
        padOf (fmtFields af ch sr br ba bps ++ fe) fp ++
        mkChunk tag extra ++ padOf extra xp ++
        dataTag ++ le32 dsize ++ rest)
      = .ok (⟨af, ch, sr, br, ba, bps⟩, rest) := by
  have haf16 : af < 65536 := by rcases haf with h1 | h1 <;> omega
  have h1 : ¬ (riffMagic ++ sz ++ waveMagic ++
        mkChunk fmtTag (fmtFields af ch sr br ba bps ++ fe) ++
        padOf (fmtFields af ch sr br ba bps ++ fe) fp ++
        mkChunk tag extra ++ padOf extra xp ++
        dataTag ++ le32 dsize ++ rest).length < 12 := by
    simp only [List.length_append, length_riffMagic, length_waveMagic, hsz, Nat.not_lt]
    omega
  have h2 : (riffMagic ++ sz ++ waveMagic ++
        mkChunk fmtTag (fmtFields af ch sr br ba bps ++ fe) ++
        padOf (fmtFields af ch sr br ba bps ++ fe) fp ++
        mkChunk tag extra ++ padOf extra xp ++
        dataTag ++ le32 dsize ++ rest).take 4 = riffMagic := by
    rw [show riffMagic ++ sz ++ waveMagic ++
        mkChunk fmtTag (fmtFields af ch sr br ba bps ++ fe) ++
        padOf (fmtFields af ch sr br ba bps ++ fe) fp ++
        mkChunk tag extra ++ padOf extra xp ++
        dataTag ++ le32 dsize ++ rest
      = riffMagic ++ (sz ++ (waveMagic ++
        (mkChunk fmtTag (fmtFields af ch sr br ba bps ++ fe) ++
        (padOf (fmtFields af ch sr br ba bps ++ fe) fp ++
        (mkChunk tag extra ++ (padOf extra xp ++
        (dataTag ++ (le32 dsize ++ rest)))))))) from by simp [List.append_assoc]]
    exact take_len_append _ _ _ length_riffMagic
  have h3 : ((riffMagic ++ sz ++ waveMagic ++
        mkChunk fmtTag (fmtFields af ch sr br ba bps ++ fe) ++
        padOf (fmtFields af ch sr br ba bps ++ fe) fp ++
        mkChunk tag extra ++ padOf extra xp ++
        dataTag ++ le32 dsize ++ rest).drop 8).take 4 = waveMagic := by
    rw [show riffMagic ++ sz ++ waveMagic ++
        mkChunk fmtTag (fmtFields af ch sr br ba bps ++ fe) ++
        padOf (fmtFields af ch sr br ba bps ++ fe) fp ++
        mkChunk tag extra ++ padOf extra xp ++
        dataTag ++ le32 dsize ++ rest
      = (riffMagic ++ sz) ++ (waveMagic ++
        (mkChunk fmtTag (fmtFields af ch sr br ba bps ++ fe) ++
        (padOf (fmtFields af ch sr br ba bps ++ fe) fp ++
        (mkChunk tag extra ++ (padOf extra xp ++
        (dataTag ++ (le32 dsize ++ rest))))))) from by simp [List.append_assoc]]
    rw [drop_len_append _ _ _ (by simp [length_riffMagic, hsz])]
    exact take_len_append _ _ _ length_waveMagic
  have h4 : (riffMagic ++ sz ++ waveMagic ++
        mkChunk fmtTag (fmtFields af ch sr br ba bps ++ fe) ++
        padOf (fmtFields af ch sr br ba bps ++ fe) fp ++
        mkChunk tag extra ++ padOf extra xp ++
        dataTag ++ le32 dsize ++ rest).drop 12
      = (mkChunk fmtTag (fmtFields af ch sr br ba bps ++ fe) ++
          padOf (fmtFields af ch sr br ba bps ++ fe) fp) ++
        ((mkChunk tag extra ++ padOf extra xp) ++
          (dataTag ++ le32 dsize ++ rest)) := by
    rw [show riffMagic ++ sz ++ waveMagic ++
        mkChunk fmtTag (fmtFields af ch sr br ba bps ++ fe) ++
        padOf (fmtFields af ch sr br ba bps ++ fe) fp ++
        mkChunk tag extra ++ padOf extra xp ++
        dataTag ++ le32 dsize ++ rest
      = (riffMagic ++ sz ++ waveMagic) ++
        ((mkChunk fmtTag (fmtFields af ch sr br ba bps ++ fe) ++
          padOf (fmtFields af ch sr br ba bps ++ fe) fp) ++
        ((mkChunk tag extra ++ padOf extra xp) ++
          (dataTag ++ le32 dsize ++ rest))) from by simp [List.append_assoc]]
    exact drop_len_append _ _ _ (by simp [length_riffMagic, length_waveMagic, hsz])
  have h5 : (riffMagic ++ sz ++ waveMagic ++
        mkChunk fmtTag (fmtFields af ch sr br ba bps ++ fe) ++
        padOf (fmtFields af ch sr br ba bps ++ fe) fp ++
        mkChunk tag extra ++ padOf extra xp ++
        dataTag ++ le32 dsize ++ rest).length + 1
      = ((riffMagic ++ sz ++ waveMagic ++
        mkChunk fmtTag (fmtFields af ch sr br ba bps ++ fe) ++
        padOf (fmtFields af ch sr br ba bps ++ fe) fp ++
        mkChunk tag extra ++ padOf extra xp ++
        dataTag ++ le32 dsize ++ rest).length - 2) + 1 + 1 + 1 := by
    omega
  rw [readWavHeader, if_neg h1, h2, if_neg (by simp), h3, if_neg (by simp), h4, h5]
  rw [readChunks_fmt_step ⟨0, 0, 0, 0, 0, 0⟩ false af ch sr br ba bps fe fp _ _
    haf16 hch hsr hbr hba hbps hfe]
  rw [readChunks_skip_step _ true tag extra xp _ _ ht4 htf htd hex]
  rw [readChunks_data_step _ dsize rest _ haf hds]

/-- C4 (witness): a concrete stream - PCM format, 2 channels, 44100 Hz, 16
bits per sample, a LIST chunk of declared size 3 followed by its padding
byte - parses to those fields with the reader left at the 3 data bytes. -/
theorem readWavHeader_ordered_chunks_witness :
    readWavHeader
      (riffMagic ++ [0, 0, 0, 0] ++ waveMagic ++
        mkChunk fmtTag (fmtFields 1 2 44100 176400 4 16 ++ []) ++
        padOf (fmtFields 1 2 44100 176400 4 16 ++ []) 0 ++
        mkChunk [76, 73, 83, 84] [65, 66, 67] ++ padOf [65, 66, 67] 0 ++
        dataTag ++ le32 4 ++ [10, 20, 30])
      = .ok (⟨1, 2, 44100, 176400, 4, 16⟩, [10, 20, 30]) :=
  readWavHeader_ordered_chunks [0, 0, 0, 0] 1 2 44100 176400 4 16 [] 0
    [76, 73, 83, 84] [65, 66, 67] 0 4 [10, 20, 30]
    (Or.inl rfl) (by decide) (by decide) (by decide) (by decide) (by decide)
    (by decide) (by decide) (by decide) (by decide) (by decide) (by decide) (by decide)

/-! ## Header Parser failure conditions (claim C5)

specClaimedFailure is modelled from the spec words of C5 only: it walks the
chunk sequence exactly as the parser does and reports true precisely when one
of the four claimed failure conditions occurs - bad prologue magic, a data
chunk before any format chunk, an unsupported format code at the data chunk,
or a format chunk declaring fewer than 16 bytes. Running out of stream is not
one of the four conditions, so the walk reports false there. -/

def isErr {e a : Type} : Except e a → Bool
  | .error _ => true
  | .ok _ => false

/-- Modelled from the spec words of C5: the prologue does not carry RIFF at
offset 0 and WAVE at offset 8. -/
def specPrologueBad (s : List ℕ) : Bool :=
  decide (s.length < 12) || decide (s.take 4 ≠ riffMagic) ||
    decide ((s.drop 8).take 4 ≠ waveMagic)

/-- Modelled from the spec words of C5: the format code seen at the data
chunk is not 1 and not 65534. -/
def afmtBad : Option ℕ → Bool
  | some a => decide (a ≠ 1 ∧ a ≠ 65534)
  | none => false

/-- Modelled from the spec words of C5: the chunk-level failure conditions,
walked over the same traversal as readChunks. -/
def specFailWalk (foundFmt : Bool) (afmt : Option ℕ) (s : List ℕ) : ℕ → Bool
  | 0 => false
  | fuel + 1 =>
    if s.length < 8 then false
    else if s.take 4 = fmtTag then
      if dec32 (s.drop 4) < 16 then true
      else if (s.drop 8).length < dec32 (s.drop 4) then false
      else specFailWalk true (some (dec16 ((s.drop 8).take (dec32 (s.drop 4)))))
        (skipPad (dec32 (s.drop 4)) ((s.drop 8).drop (dec32 (s.drop 4)))) fuel
    else if s.take 4 = dataTag then
      if foundFmt = false then true
      else afmtBad afmt
    else if (s.drop 8).length < dec32 (s.drop 4) then false
    else specFailWalk foundFmt afmt (skipPad (dec32 (s.drop 4)) ((s.drop 8).drop (dec32 (s.drop 4)))) fuel

/-- Modelled from the spec words of C5: the disjunction of the four claimed
failure conditions. -/
def specClaimedFailure (s : List ℕ) : Bool :=
  specPrologueBad s || specFailWalk false none (s.drop 12) (s.length + 1)

lemma specFailWalk_implies_error (fuel : ℕ) :
    ∀ (s : List ℕ) (ff : Bool) (afmt : Option ℕ) (h : WavHeader),
      (ff = true → afmt = some h.audioFormat) ->
      specFailWalk ff afmt s fuel = true → isErr (readChunks h ff s fuel) = true := by
  induction fuel with
  | zero =>
    intro s ff afmt h _ hw
    simp [specFailWalk] at hw
  | succ fuel ih =>
    intro s ff afmt h hl hw
    rw [specFailWalk] at hw
    rw [readChunks]
    by_cases h8 : s.length < 8
    · rw [if_pos h8] at hw
      exact absurd hw (by simp)
    · rw [if_neg h8] at hw ⊢
      by_cases hf : s.take 4 = fmtTag
      · rw [if_pos hf] at hw ⊢
        by_cases h16 : dec32 (s.drop 4) < 16
        · rw [if_pos h16]; rfl
        · rw [if_neg h16] at hw ⊢
          by_cases hlen : (s.drop 8).length < dec32 (s.drop 4)
          · rw [if_pos hlen]; rfl
          · rw [if_neg hlen] at hw ⊢
            exact ih _ _ _ _ (fun _ => rfl) hw
      · rw [if_neg hf] at hw ⊢
        by_cases hd : s.take 4 = dataTag
        · rw [if_pos hd] at hw ⊢
          by_cases hff : ff = false
          · rw [if_pos hff]; rfl
          · rw [if_neg hff] at hw ⊢
            have hfft : ff = true := by revert hff; cases ff <;> simp
            rw [hl hfft] at hw
            rw [show afmtBad (some h.audioFormat)
              = decide (h.audioFormat ≠ 1 ∧ h.audioFormat ≠ 65534) from rfl] at hw
            rw [if_pos (of_decide_eq_true hw)]
            rfl
        · rw [if_neg hd] at hw ⊢
          by_cases hlen : (s.drop 8).length < dec32 (s.drop 4)
          · rw [if_pos hlen]; rfl
          · rw [if_neg hlen] at hw ⊢
            exact ih _ _ _ _ hl hw

/-- C5 (amended): the four claimed failure conditions each make the parser
fail - missing or mismatched RIFF and WAVE magic, a data chunk before any
format chunk, a format code other than 1 or 65534 at the data chunk, and a
format chunk declaring fewer than 16 bytes. They are not the only failures:
the parser also fails on streams that end before a data chunk is reached, so
the claimed list is sound but not exhaustive. -/
theorem readWavHeader_fails_on_claimed (s : List ℕ)
    (h : specClaimedFailure s = true) : isErr (readWavHeader s) = true := by
  rw [readWavHeader]
  by_cases h12 : s.length < 12
  · rw [if_pos h12]; rfl
  · rw [if_neg h12]
    by_cases hr : s.take 4 ≠ riffMagic
    · rw [if_pos hr]; rfl
    · rw [if_neg hr]
      by_cases hwv : (s.drop 8).take 4 ≠ waveMagic
      · rw [if_pos hwv]; rfl
      · rw [if_neg hwv]
        rw [specClaimedFailure, Bool.or_eq_true] at h
        rcases h with h | h
        · rw [specPrologueBad] at h
          simp [h12, hr, hwv] at h
        · exact specFailWalk_implies_error _ _ _ _ _
            (fun hff => (Bool.false_ne_true hff).elim) h

/-- C5 (witness): a stream consisting of three stray bytes has a bad prologue
and the parser indeed fails on it. -/
theorem readWavHeader_fails_on_claimed_witness :
    isErr (readWavHeader [0, 1, 2]) = true :=
  readWavHeader_fails_on_claimed [0, 1, 2] (by decide)

/-- C5 (counterexample): a stream carrying a valid 12-byte RIFF WAVE prologue
and nothing else satisfies none of the four claimed failure conditions, yet
the parser fails on it - so the parser does not fail exactly when one of the
four conditions holds. -/
theorem readWavHeader_prologue_only_cex :
    isErr (readWavHeader [82, 73, 70, 70, 0, 0, 0, 0, 87, 65, 86, 69]) = true ∧
    specClaimedFailure [82, 73, 70, 70, 0, 0, 0, 0, 87, 65, 86, 69] = false := by
  constructor <;> decide

/-! ## Player queue operations (src/unnamed/part_002)

PlayPrevious (lines 475-496) and SetVolume (lines 529-546) touch only the
queue, history, now-playing, skip-signal, volume and notification-slot parts
of the player, so they are modelled as pure functions on records carrying
exactly those parts. Songs are identified by naturals. Manager.Shutdown
(internal/player/manager.go lines 74-83) locks the registry and launches one
concurrent Stop per registered player; it deletes nothing from the map and
does not wait, so it is modelled as a pure function returning the registry
after the call and the list of players whose Stop was launched. The teardown
of streamSong (part_002 lines 622-768) is modelled by an evaluator for
straight-line Go bodies with defer semantics: plain statements run in order,
defer statements push their action, and on return - or on a panic at the
given instruction index - the registered deferred actions run in reverse
order. streamSongInstrs is streamSong from its two defers (lines 626 and 634)
through encoder creation (line 689), Speaking(true) (line 710), the control
loop (lines 729-758), the plain - not deferred - cleanupSession call (line
760) and the final Speaking(false) (line 761). -/

structure PlayerQueueState where
  queue : List ℕ
  history : List ℕ
  nowPlaying : Option ℕ
  skipRaised : Bool
deriving DecidableEq

/-- Player.PlayPrevious: a no-op on empty history; otherwise pop the history
tail, push the current now-playing song and then the popped song onto the
queue head, and raise the skip signal via Skip. -/
def playPrevious (st : PlayerQueueState) : PlayerQueueState :=
  match st.history.getLast? with
  | none => st
  | some prev =>
    { st with
      history := st.history.dropLast,
      queue := prev :: (st.nowPlaying.toList ++ st.queue),
      skipRaised := true }

/-- C7 (confirmed): PlayPrevious on empty History changes nothing and raises
no skip signal; on nonempty History it pops the history tail, the resulting
queue begins with the previous song, then the current now-playing song when
there is one, then the former queue, and the skip signal is raised. -/
theorem playPrevious_contract (q hist : List ℕ) (now : Option ℕ) (sk : Bool) :
    (playPrevious ⟨q, [], now, sk⟩ = ⟨q, [], now, sk⟩) ∧
    (∀ pre prev, hist = pre ++ [prev] →
      playPrevious ⟨q, hist, now, sk⟩ = ⟨prev :: (now.toList ++ q), pre, now, true⟩) := by
  constructor
  · simp [playPrevious]
  · rintro pre prev rfl
    simp [playPrevious]

/-- C7 (witness): with history 1, 2, now-playing 9 and queue 3, PlayPrevious
yields the queue 2, 9, 3, history 1, and a raised skip signal. -/
theorem playPrevious_contract_witness :
    playPrevious ⟨[3], [1, 2], some 9, false⟩ = ⟨[2, 9, 3], [1], some 9, true⟩ :=
  (playPrevious_contract [3] [1, 2] (some 9) false).2 [1] 2 rfl

structure VolumeState where
  volume : ℤ
  notifyPending : Bool
  sessionActive : Bool
deriving DecidableEq

/-- Player.SetVolume: clamp the level into 0..256, store it, and do a
nonblocking send on the single-slot volume-change channel - the slot is
occupied afterwards whether or not it already was, and nothing else is
consulted. -/
def setVolume (v : ℤ) (st : VolumeState) : VolumeState :=
  { st with
    volume := if v < 0 then 0 else if v > 256 then 256 else v,
    notifyPending := true }

/-- Modelled from the spec words of C8 only, for comparison with the code:
the notification is posted only if a session is active. -/
def specSetVolume (v : ℤ) (st : VolumeState) : VolumeState :=
  { st with
    volume := if v < 0 then 0 else if v > 256 then 256 else v,
    notifyPending := if st.sessionActive then true else st.notifyPending }

/-- C8 (counterexample): SetVolume posts the volume-changed notification even
when no session is active - on an idle player with an empty slot the code
fills the slot, where the claim says it stays empty. -/
theorem setVolume_posts_when_idle_cex :
    setVolume 100 ⟨5, false, false⟩ ≠ specSetVolume 100 ⟨5, false, false⟩ := by
  decide

/-- C8 (amended): SetVolume stores the level clamped into 0..256 - 1000 is
stored as 256 and -5 as 0 - and always leaves a notification pending in the
single slot, regardless of whether a session is active; a send into an
occupied slot is dropped, so the call never blocks, which the model reflects
by being a total function. -/
theorem setVolume_clamps_and_posts (v : ℤ) (st : VolumeState) :
    (setVolume v st).volume = max 0 (min 256 v) ∧
    (setVolume v st).notifyPending = true ∧
    (setVolume v st).sessionActive = st.sessionActive ∧
    (setVolume 1000 st).volume = 256 ∧ (setVolume (-5) st).volume = 0 := by
  refine ⟨?_, rfl, rfl, ?_, ?_⟩ <;> simp [setVolume] <;> omega

structure ManagerState where
  players : List (ℕ × ℕ)
deriving DecidableEq

/-- Manager.Shutdown: fire one concurrent Stop per registered player, leave
the registry untouched, return immediately. -/
def shutdown (m : ManagerState) : ManagerState × List ℕ :=
  (m, m.players.map (fun p => p.2))

/-- C9 (counterexample): after Shutdown on a registry holding one player the
registry still holds that player, where the claim says the registry holds no
players once Shutdown returns or completes. -/
theorem shutdown_keeps_registry_cex :
    ((shutdown ⟨[(1, 7)]⟩).1).players ≠ [] := by decide

/-- C9 (amended): Shutdown launches a concurrent Stop for every registered
player and returns without waiting for any of them, but it does not detach
players - the registry is unchanged and still holds every player after
Shutdown returns. -/
theorem shutdown_stops_all_without_detaching (m : ManagerState) (g pid : ℕ)
    (h : (g, pid) ∈ m.players) :
    (shutdown m).1 = m ∧ pid ∈ (shutdown m).2 := by
  refine ⟨rfl, ?_⟩
  simp only [shutdown, List.mem_map]
  exact ⟨(g, pid), h, rfl⟩

/-- C9 (witness): on a registry holding player 7 for guild 1, Shutdown leaves
the registry unchanged and launches a Stop for player 7. -/
theorem shutdown_stops_all_without_detaching_witness :
    (shutdown ⟨[(1, 7)]⟩).1 = ⟨[(1, 7)]⟩ ∧ 7 ∈ (shutdown ⟨[(1, 7)]⟩).2 :=
  shutdown_stops_all_without_detaching ⟨[(1, 7)]⟩ 1 7 (by decide)

inductive SongExit where
  | streamDone
  | streamError
  | stopSignal
  | skipSignal
deriving DecidableEq

inductive TeardownAct where
  | speakingOn
  | speakingOff
  | bodyClose
  | encoderCreate
  | encoderCleanup
  | refsCleared
  | controlLoop (e : SongExit)
deriving DecidableEq

inductive GoInstr where
  | plain (a : TeardownAct)
  | deferred (a : TeardownAct)
deriving DecidableEq

/-- Defer-aware execution of a straight-line body with an optional panic at
the given instruction index. -/
def runWithDefers : List GoInstr → Option ℕ → List TeardownAct → List TeardownAct
  | [], _, defs => defs
  | _ :: _, some 0, defs => defs
  | .plain a :: rest, pan, defs => a :: runWithDefers rest (pan.map (· - 1)) defs
  | .deferred a :: rest, pan, defs => runWithDefers rest (pan.map (· - 1)) (a :: defs)

/-- The instruction sequence of streamSong once the encoder session exists,
with the control loop ending for the given reason. -/
def streamSongInstrs (e : SongExit) : List GoInstr :=
  [ .deferred .speakingOff,
    .deferred .bodyClose,
    .plain .encoderCreate,
    .plain .speakingOn,
    .plain (.controlLoop e),
    .plain .encoderCleanup,
    .plain .refsCleared,
    .plain .speakingOff ]

/-- C6 (counterexample): cleanupSession is a plain call, not a deferred one,
so a panic inside the control loop - instruction index 4, after the encoder
session was created - skips both the encoder release and the clearing of the
session references; only the deferred transport and body actions still run.
This refutes the claim that the full teardown runs on every exit path
including panics. -/
theorem streamSong_panic_skips_cleanup_cex :
    TeardownAct.encoderCleanup ∉ runWithDefers (streamSongInstrs .stopSignal) (some 4) [] ∧
    TeardownAct.refsCleared ∉ runWithDefers (streamSongInstrs .stopSignal) (some 4) [] ∧
    TeardownAct.speakingOff ∈ runWithDefers (streamSongInstrs .stopSignal) (some 4) [] ∧
    TeardownAct.encoderCreate ∈ runWithDefers (streamSongInstrs .stopSignal) (some 4) [] := by
  refine ⟨?_, ?_, ?_, ?_⟩ <;> decide

/-- C6 (amended): on every panic-free termination of the control loop after
the encoder session is created - natural stream end, stream error, stop and
skip - the teardown runs in full: the transport is marked as no longer
sending, the encoder session is released and the session references are
cleared. On a panic only the deferred transport mark runs; the encoder
release and reference clearing are skipped, as the counterexample shows. -/
theorem streamSong_teardown_on_exit (e : SongExit) :
    TeardownAct.speakingOff ∈ runWithDefers (streamSongInstrs e) none [] ∧
    TeardownAct.encoderCleanup ∈ runWithDefers (streamSongInstrs e) none [] ∧
    TeardownAct.refsCleared ∈ runWithDefers (streamSongInstrs e) none [] := by
  cases e <;> exact ⟨by decide, by decide, by decide⟩


end Soosa
